import Mathlib

/-!
Shallow embedding of `src/localchat.py` (`SimpleChatbot`), the tracked-context
manager of the localchat repository: tracked files with cached token counts,
the 100000-token global budget, lenses, persistence, directory walking, and
the slash-command dispatch relevant to the verified claims.

Python dictionaries are modelled as insertion-ordered association lists
(`PyDict`): assignment to an existing key updates the value in place, keeping
its position; assignment to a fresh key appends at the end; `del` removes the
entry.  The token-counting oracle (`tiktoken`) is an explicit function
parameter `tokens : String → Nat`.  File-system reads are explicit parameters
(`Option String`: `none` means the path is not a readable regular file).
Operations return the successor state paired with the list of printed lines;
operations whose Python original can raise an uncaught `KeyError` return
`Option` (`none` models the uncaught exception).
-/

namespace LocalChat

/-- Insertion-ordered dictionary: model of a Python `dict` with `String` keys. -/
abbrev PyDict (α : Type) : Type := List (String × α)

/-- Model of Python `d[k]` as a partial read (`None` when the key is absent). -/
def dlookup {α : Type} : PyDict α → String → Option α
  | [], _ => none
  | (k, v) :: rest, key => if k = key then some v else dlookup rest key

/-- Model of Python `k in d`. -/
def dmem {α : Type} (d : PyDict α) (key : String) : Bool :=
  (dlookup d key).isSome

/-- Model of Python `d[k] = v`: update in place if present, else append. -/
def dset {α : Type} : PyDict α → String → α → PyDict α
  | [], key, v => [(key, v)]
  | (k, w) :: rest, key, v =>
    if k = key then (key, v) :: rest else (k, w) :: dset rest key v

/-- Model of Python `del d[k]` (removes the entry for `k` when present). -/
def ddel {α : Type} : PyDict α → String → PyDict α
  | [], _ => []
  | (k, w) :: rest, key => if k = key then rest else (k, w) :: ddel rest key

/-- Model of Python `d[k]` for token-count dictionaries, defaulting to 0;
the modelled code only reads keys it has just checked to be present. -/
def dget (d : PyDict Nat) (key : String) : Nat :=
  (dlookup d key).getD 0

/-- Model of Python `d.keys()` in iteration (insertion) order. -/
def dkeys {α : Type} (d : PyDict α) : List String :=
  d.map Prod.fst

/-- Sum of the cached token counts stored in a tracked-files dictionary. -/
def sumValues (d : PyDict Nat) : Nat :=
  (d.map Prod.snd).sum

/-- Model of Python `s.startswith(pre)`. -/
def startswith (s pre : String) : Bool :=
  pre.toList.isPrefixOf s.toList

/-- The in-memory state of `SimpleChatbot` relevant to file tracking:
`tracked_files`, `total_tokens`, `lenses` and `active_lens`
(`active_lens = ""` is the code's encoding of "no active lens"). -/
structure State where
  tracked_files : PyDict Nat
  total_tokens : Int
  lenses : PyDict (PyDict Nat)
  active_lens : String
  deriving Repr, DecidableEq

/-- The state built by `SimpleChatbot.__init__` before any load: empty store. -/
def initState : State :=
  { tracked_files := [], total_tokens := 0, lenses := [], active_lens := "" }

/-- `SimpleChatbot.TOKEN_LIMIT`. -/
def TOKEN_LIMIT : Int := 100000

/-- `SimpleChatbot.track_file`.  `file = some content` models
`os.path.isfile` succeeding and `open(...).read()` returning `content`;
`file = none` models a path that is not a regular file. -/
def track_file (tokens : String → Nat) (s : State) (filepath : String)
    (file : Option String) : State × List String :=
  match file with
  | some content =>
    let token_count := tokens content
    let new_total := s.total_tokens + (token_count : Int)
    if new_total ≤ TOKEN_LIMIT then
      ({ s with tracked_files := dset s.tracked_files filepath token_count,
                total_tokens := new_total },
       ["Tracking file: " ++ filepath ++ ", Tokens: " ++ toString token_count])
    else
      (s, ["Adding " ++ filepath ++ " would exceed the token limit. Not added."])
  | none => (s, ["File " ++ filepath ++ " does not exist."])

/-- `SimpleChatbot.remove_tracked_file`. -/
def remove_tracked_file (s : State) (filepath : String) : State × List String :=
  match dlookup s.tracked_files filepath with
  | some c =>
    ({ s with total_tokens := s.total_tokens - (c : Int),
              tracked_files := ddel s.tracked_files filepath },
     ["Removed file from tracking: " ++ filepath])
  | none => (s, ["File " ++ filepath ++ " is not being tracked."])

/-- `SimpleChatbot.clear_tracked_files`. -/
def clear_tracked_files (s : State) : State × List String :=
  ({ s with tracked_files := [], total_tokens := 0 },
   ["All tracked files have been cleared."])

/-- `SimpleChatbot.create_lens`. -/
def create_lens (s : State) (lens_name : String) : State × List String :=
  if dmem s.lenses lens_name then
    (s, ["Lens \x27" ++ lens_name ++ "\x27 already exists."])
  else
    ({ s with lenses := dset s.lenses lens_name [], active_lens := lens_name },
     ["Lens \x27" ++ lens_name ++ "\x27 created."])

/-- `SimpleChatbot.switch_lens`. -/
def switch_lens (s : State) (lens_name : String) : State × List String :=
  if lens_name = "none" then
    ({ s with active_lens := "" }, ["Switched to no active lens."])
  else if dmem s.lenses lens_name = false then
    (s, ["Lens \x27" ++ lens_name ++ "\x27 does not exist."])
  else
    ({ s with active_lens := lens_name },
     ["Switched to lens \x27" ++ lens_name ++ "\x27."])

/-- `SimpleChatbot.add_file_to_lens`.  The Python assignment
`self.lenses[self.active_lens][filepath] = ...` raises an uncaught `KeyError`
when the active-lens name is not a key of `lenses`; that crash is modelled as
`none`. -/
def add_file_to_lens (s : State) (filepath : String) :
    Option (State × List String) :=
  if s.active_lens = "" then
    some (s, ["No active lens. Please switch to or create a lens first."])
  else if dmem s.tracked_files filepath then
    match dlookup s.lenses s.active_lens with
    | none => none
    | some lens =>
      some ({ s with lenses := dset s.lenses s.active_lens
                       (dset lens filepath (dget s.tracked_files filepath)) },
            ["File " ++ filepath ++ " added to lens \x27" ++ s.active_lens ++ "\x27."])
  else
    some (s, ["File " ++ filepath ++ " is not tracked. Please track the file first."])

/-- `SimpleChatbot.remove_file_from_lens`.  The Python membership test
`filepath not in self.lenses[self.active_lens]` raises an uncaught `KeyError`
when the active-lens name is not a key of `lenses`; that crash is modelled as
`none`. -/
def remove_file_from_lens (s : State) (filepath : String) :
    Option (State × List String) :=
  if s.active_lens = "" then
    some (s, ["File " ++ filepath ++ " is not part of the active lens."])
  else
    match dlookup s.lenses s.active_lens with
    | none => none
    | some lens =>
      if dmem lens filepath = false then
        some (s, ["File " ++ filepath ++ " is not part of the active lens."])
      else
        some ({ s with lenses := dset s.lenses s.active_lens (ddel lens filepath) },
              ["File " ++ filepath ++ " removed from lens \x27" ++ s.active_lens ++ "\x27."])

/-- `SimpleChatbot.list_files_in_lens` (returns the printed lines). -/
def list_files_in_lens (s : State) (lens_name : String) : List String :=
  match dlookup s.lenses lens_name with
  | none => ["Lens \x27" ++ lens_name ++ "\x27 does not exist."]
  | some lens =>
    if lens.length = 0 then
      ["No files in the lens \x27" ++ lens_name ++ "\x27."]
    else
      ("Files in lens \x27" ++ lens_name ++ "\x27:") ::
        lens.map (fun e => "- " ++ e.1 ++ " (Tokens: " ++ toString e.2 ++ ")")

/-- The `/list_lens <name>` branch of `SimpleChatbot.run`: inputs starting
with `"/list_lens "` reach this branch (no earlier `elif` matches them), and
the code computes the argument as
`user_input[len("/list_files_in_lens ") :]`. -/
def run_list_lens_branch (s : State) (user_input : String) :
    Option (List String) :=
  if startswith user_input "/list_lens " then
    some (list_files_in_lens s (user_input.drop ("/list_files_in_lens ").length))
  else
    none

/-- The per-file blocks appended by `SimpleChatbot.read_tracked_files`:
for each path, `open(filepath).read()` (modelled by `disk`); a missing file
makes the uncaught `IOError` propagate, modelled as `none`. -/
def renderFiles (disk : String → Option String) : List String → Option String
  | [] => some ""
  | p :: rest => do
    let c ← disk p
    let r ← renderFiles disk rest
    pure ("File: " ++ p ++ "\n\n" ++ "\x60\x60\x60\n" ++ c ++ "\x60\x60\x60\n\n" ++ r)

/-- `SimpleChatbot.read_tracked_files`: builds the context string from the
active lens's dictionary when `active_lens` is non-empty (a `KeyError` on a
dangling active-lens name is modelled as `none`), else from `tracked_files`. -/
def read_tracked_files (s : State) (disk : String → Option String) :
    Option String :=
  match (if s.active_lens = "" then some s.tracked_files
         else dlookup s.lenses s.active_lens) with
  | none => none
  | some files_dict =>
    (renderFiles disk (dkeys files_dict)).map
      (fun body => "Tracked file context:\n\n" ++ body)

/-- Specification-side closed form of the context body: the concatenation,
in iteration order, of a header naming each file and its content in a fenced
code block. -/
def renderList (content : String → String) : List String → String
  | [] => ""
  | p :: rest =>
    "File: " ++ p ++ "\n\n" ++ "\x60\x60\x60\n" ++ content p ++ "\x60\x60\x60\n\n" ++
      renderList content rest

/-- JSON values as produced/consumed by `json.dump` / `json.load` for the
`.localchat-tracking.json` snapshot (only the shapes the program uses). -/
inductive Json where
  | str : String → Json
  | num : Int → Json
  | obj : List (String × Json) → Json

/-- Model of Python `data.get(key, default)` on a decoded JSON object. -/
def jget (fields : List (String × Json)) (key : String) (dflt : Json) : Json :=
  (dlookup fields key).getD dflt

/-- Encoding of a path → token-count dictionary as a JSON object. -/
def encodeCounts (d : PyDict Nat) : Json :=
  Json.obj (d.map (fun e => (e.1, Json.num (e.2 : Int))))

/-- Encoding of the lens collection as a JSON object of objects. -/
def encodeLenses (l : PyDict (PyDict Nat)) : Json :=
  Json.obj (l.map (fun e => (e.1, encodeCounts e.2)))

/-- Reading a JSON number back as a token count. -/
def decodeNum : Json → Option Nat
  | Json.num n => if 0 ≤ n then some n.toNat else none
  | _ => none

/-- Reading a JSON string back. -/
def decodeStr : Json → Option String
  | Json.str a => some a
  | _ => none

/-- Reading the entries of a JSON object back as a path → count dictionary. -/
def decodeCountEntries : List (String × Json) → Option (PyDict Nat)
  | [] => some []
  | (k, j) :: rest => do
    let v ← decodeNum j
    let r ← decodeCountEntries rest
    pure ((k, v) :: r)

/-- Reading a JSON value back as a path → count dictionary. -/
def decodeCounts : Json → Option (PyDict Nat)
  | Json.obj fields => decodeCountEntries fields
  | _ => none

/-- Reading the entries of a JSON object back as a lens collection. -/
def decodeLensEntries : List (String × Json) → Option (PyDict (PyDict Nat))
  | [] => some []
  | (k, j) :: rest => do
    let v ← decodeCounts j
    let r ← decodeLensEntries rest
    pure ((k, v) :: r)

/-- Reading a JSON value back as a lens collection. -/
def decodeLenses : Json → Option (PyDict (PyDict Nat))
  | Json.obj fields => decodeLensEntries fields
  | _ => none

/-- `SimpleChatbot.save_tracked_files`: the JSON snapshot written to
`.localchat-tracking.json`. -/
def save_tracked_files (s : State) : Json :=
  Json.obj [("tracked_files", encodeCounts s.tracked_files),
            ("lenses", encodeLenses s.lenses),
            ("active_lens", Json.str s.active_lens)]

/-- `SimpleChatbot.load_tracked_files`.  `file = none` models the snapshot
file being absent (`os.path.isfile` false: state untouched); `some j` models
`json.load` returning `j`.  `total_tokens` is recomputed as the sum of the
loaded counts.  A snapshot whose fields do not decode to the expected shapes
would crash the Python code later; that is modelled as `none`. -/
def load_tracked_files (s : State) (file : Option Json) : Option State :=
  match file with
  | none => some s
  | some (Json.obj fields) => do
    let tf ← decodeCounts (jget fields "tracked_files" (Json.obj []))
    let ls ← decodeLenses (jget fields "lenses" (Json.obj []))
    let al ← decodeStr (jget fields "active_lens" (Json.str ""))
    pure { s with tracked_files := tf, lenses := ls, active_lens := al,
                  total_tokens := (sumValues tf : Int) }
  | some _ => none

/-- Model of `os.path.join(root, name)`. -/
def pjoin (root name : String) : String :=
  root ++ "/" ++ name

/-! A directory tree as visited by `os.walk`: regular files with the outcome
of reading them (`Except.error e` models an `IOError` with message `e`), and
named subdirectories. -/
mutual
inductive DirTree where
  | node : List (String × Except String String) → EntryList → DirTree
inductive EntryList where
  | nil : EntryList
  | cons : String → DirTree → EntryList → EntryList
end

/-- The body of the `for file in files` loop of
`SimpleChatbot.track_directory` for one non-hidden candidate file
(I/O errors caught and reported; files over 20000 tokens skipped with a
reason; otherwise delegated to `track_file`). -/
def processEntry (tokens : String → Nat) (acc : State × List String)
    (e : String × Except String String) : State × List String :=
  match e.2 with
  | Except.error err =>
    (acc.1, acc.2 ++ ["Error processing " ++ e.1 ++ ": " ++ err ++ ". Skipping."])
  | Except.ok content =>
    if tokens content > 20000 then
      (acc.1, acc.2 ++ ["Skipping " ++ e.1 ++ ": exceeds 20000 token limit."])
    else
      let r := track_file tokens acc.1 e.1 (some content)
      (r.1, acc.2 ++ r.2)

/-! `os.walk` with the in-place pruning `dirs[:] = [d for d in dirs if not
d.startswith(".")]` and the per-file loop of `track_directory`: the current
directory's files are processed first (skipping names that start with a dot),
then each non-hidden subdirectory is walked recursively. -/
mutual
def track_dir_walk (tokens : String → Nat) (root : String) :
    DirTree → State × List String → State × List String
  | DirTree.node files subdirs, acc =>
    let acc1 := files.foldl
      (fun a f => if startswith f.1 "." then a
                  else processEntry tokens a (pjoin root f.1, f.2)) acc
    track_subs_walk tokens root subdirs acc1
def track_subs_walk (tokens : String → Nat) (root : String) :
    EntryList → State × List String → State × List String
  | EntryList.nil, acc => acc
  | EntryList.cons n t rest, acc =>
    let acc1 := if startswith n "." then acc
                else track_dir_walk tokens (pjoin root n) t acc
    track_subs_walk tokens root rest acc1
end

/-- `SimpleChatbot.track_directory`, walking the tree rooted at
`directory_path`. -/
def track_directory (tokens : String → Nat) (s : State)
    (directory_path : String) (t : DirTree) : State × List String :=
  track_dir_walk tokens directory_path t (s, [])

/-! The candidate files the walk examines, in walk order: non-hidden files of
the current directory (joined to the root), then the candidates of each
non-hidden subdirectory. -/
mutual
def candFiles (root : String) : DirTree → List (String × Except String String)
  | DirTree.node files subdirs =>
    (files.filter (fun f => !startswith f.1 ".")).map
      (fun f => (pjoin root f.1, f.2)) ++ candSubs root subdirs
def candSubs (root : String) : EntryList → List (String × Except String String)
  | EntryList.nil => []
  | EntryList.cons n t rest =>
    (if startswith n "." then [] else candFiles (pjoin root n) t) ++
      candSubs root rest
end

/-! The tree with every hidden-named file and every hidden-named
subdirectory (at every level) deleted. -/
mutual
def pruneTree : DirTree → DirTree
  | DirTree.node files subdirs =>
    DirTree.node (files.filter (fun f => !startswith f.1 ".")) (pruneSubs subdirs)
def pruneSubs : EntryList → EntryList
  | EntryList.nil => EntryList.nil
  | EntryList.cons n t rest =>
    if startswith n "." then pruneSubs rest
    else EntryList.cons n (pruneTree t) (pruneSubs rest)
end

/-- The body of the `for filepath in to_remove` loop of
`SimpleChatbot.remove_tracked_directory`: decrement `total_tokens` by the
cached count, then delete the entry. -/
def rmStep (st : State) (p : String) : State :=
  { st with total_tokens := st.total_tokens - (dget st.tracked_files p : Int),
            tracked_files := ddel st.tracked_files p }

/-- `SimpleChatbot.remove_tracked_directory`.  `abspath` models
`os.path.abspath`. -/
def remove_tracked_directory (abspath : String → String) (s : State)
    (directory_path : String) : State × List String :=
  let dp := abspath directory_path
  let to_remove := (dkeys s.tracked_files).filter (fun p => startswith (abspath p) dp)
  if to_remove.isEmpty then
    (s, ["No tracked files found in directory: " ++ dp])
  else
    (to_remove.foldl rmStep s,
     ["Removed all tracked files in directory: " ++ dp])

/-! ### Dictionary lemmas -/

theorem dlookup_dset_self {α : Type} (d : PyDict α) (k : String) (v : α) :
    dlookup (dset d k v) k = some v := by
  induction d with
  | nil => simp [dset, dlookup]
  | cons e rest ih =>
    obtain ⟨k', w⟩ := e
    by_cases h : k' = k
    · simp [dset, h, dlookup]
    · simp [dset, h, dlookup, ih]

theorem dmem_dset_self {α : Type} (d : PyDict α) (k : String) (v : α) :
    dmem (dset d k v) k = true := by
  simp [dmem, dlookup_dset_self]

theorem dset_dset_same {α : Type} (d : PyDict α) (k : String) (x y : α) :
    dset (dset d k x) k y = dset d k y := by
  induction d with
  | nil => simp [dset]
  | cons e rest ih =>
    obtain ⟨k', w⟩ := e
    by_cases h : k' = k
    · simp [dset, h]
    · simp [dset, h, ih]

theorem dset_lookup_id {α : Type} (d : PyDict α) (k : String) (v : α)
    (h : dlookup d k = some v) : dset d k v = d := by
  induction d with
  | nil => simp [dlookup] at h
  | cons e rest ih =>
    obtain ⟨k', w⟩ := e
    by_cases hk : k' = k
    · rw [dlookup, if_pos hk] at h
      obtain rfl := Option.some_injective _ h
      simp [dset, hk]
    · rw [dlookup, if_neg hk] at h
      simp [dset, hk, ih h]

theorem ddel_dset_notmem {α : Type} (d : PyDict α) (k : String) (v : α)
    (h : dmem d k = false) : ddel (dset d k v) k = d := by
  induction d with
  | nil => simp [dset, ddel]
  | cons e rest ih =>
    obtain ⟨k', w⟩ := e
    simp only [dmem, dlookup] at h
    by_cases hk : k' = k
    · rw [if_pos hk] at h
      simp at h
    · rw [if_neg hk] at h
      simp [dset, hk, ddel, ih (by simpa [dmem] using h)]

/-! ### Claim theorems -/

/-- C1: the claim states that after every sequence of `track`/`remove` calls
from the empty store (re-tracking allowed), `total_tokens` equals the sum of
the cached counts of the tracked files.  The code violates this: tracking the
same 5-token file twice leaves `total_tokens = 10` while the cached counts
sum to 5, because `track_file` overwrites the cached entry without
subtracting the old count (the code's own `list_tracked_files` and
`load_tracked_files` recompute the total as the sum, so this contradicts the
program's own accounting). -/
theorem track_file_retrack_double_counts :
    (track_file String.length
        (track_file String.length initState "a.txt" (some "aaaaa")).1
        "a.txt" (some "aaaaa")).1.total_tokens = 10
    ∧ sumValues (track_file String.length
        (track_file String.length initState "a.txt" (some "aaaaa")).1
        "a.txt" (some "aaaaa")).1.tracked_files = 5
    ∧ (track_file String.length
        (track_file String.length initState "a.txt" (some "aaaaa")).1
        "a.txt" (some "aaaaa")).1.total_tokens
      ≠ (sumValues (track_file String.length
          (track_file String.length initState "a.txt" (some "aaaaa")).1
          "a.txt" (some "aaaaa")).1.tracked_files : Int) := by
  decide

/-- C2: tracking a readable file whose token count added to the current
total exceeds the 100000 limit leaves the whole state (tracked files, total,
lenses, active lens) unchanged and reports the budget-exceeded message. -/
theorem track_file_budget_reject (tokens : String → Nat) (s : State)
    (filepath content : String)
    (h : TOKEN_LIMIT < s.total_tokens + (tokens content : Int)) :
    track_file tokens s filepath (some content) =
      (s, ["Adding " ++ filepath ++ " would exceed the token limit. Not added."]) := by
  rw [track_file, if_neg (by omega)]

/-- Witness for C2 at a concrete over-budget state. -/
theorem track_file_budget_reject_witness :
    TOKEN_LIMIT < (100000 : Int) + (String.length "abc" : Int)
    ∧ track_file String.length
        { tracked_files := [], total_tokens := 100000, lenses := [], active_lens := "" }
        "f" (some "abc") =
      ({ tracked_files := [], total_tokens := 100000, lenses := [], active_lens := "" },
       ["Adding " ++ "f" ++ " would exceed the token limit. Not added."]) :=
  ⟨by decide,
   track_file_budget_reject String.length
     { tracked_files := [], total_tokens := 100000, lenses := [], active_lens := "" }
     "f" "abc" (by decide)⟩

/-- C5: the claim states that an input line `"/list_lens " ++ n` invokes the
list-lens operation with argument exactly `n`.  The code strips
`len("/list_files_in_lens ")` (20) characters instead of
`len("/list_lens ")` (11), so for the existing lens `"L"` the dispatched
argument is `""` and the user gets "does not exist" instead of the lens's
membership listing (which `list_files_in_lens` would produce when given
exactly `"L"`). -/
theorem run_list_lens_branch_truncates_argument :
    run_list_lens_branch
        { tracked_files := [("f.txt", 5)], total_tokens := 5,
          lenses := [("L", [("f.txt", 5)])], active_lens := "L" }
        ("/list_lens " ++ "L")
      = some ["Lens \x27\x27 does not exist."]
    ∧ ("/list_lens " ++ "L").drop ("/list_files_in_lens ").length ≠ "L"
    ∧ list_files_in_lens
        { tracked_files := [("f.txt", 5)], total_tokens := 5,
          lenses := [("L", [("f.txt", 5)])], active_lens := "L" } "L"
      = ["Files in lens \x27L\x27:", "- f.txt (Tokens: 5)"] := by
  decide

/-- C9: `switch_lens "none"` always succeeds: whatever the prior state (in
particular even if a lens literally named "none" exists), it clears the
active lens to the empty marker and reports success. -/
theorem switch_lens_none_clears (s : State) :
    switch_lens s "none" =
      ({ s with active_lens := "" }, ["Switched to no active lens."]) := by
  rw [switch_lens, if_pos rfl]

/-- C10: the four lens operations never touch the tracked-file mapping or
the running total, whether they succeed or report a failure (`radd`/`rrem`
are the outcomes of the two operations that can raise on a dangling active
lens; when they return at all, the frame holds). -/
theorem lens_ops_preserve_tracked (s : State) (n p : String)
    (radd rrem : State × List String)
    (hadd : add_file_to_lens s p = some radd)
    (hrem : remove_file_from_lens s p = some rrem) :
    (create_lens s n).1.tracked_files = s.tracked_files
    ∧ (create_lens s n).1.total_tokens = s.total_tokens
    ∧ (switch_lens s n).1.tracked_files = s.tracked_files
    ∧ (switch_lens s n).1.total_tokens = s.total_tokens
    ∧ radd.1.tracked_files = s.tracked_files
    ∧ radd.1.total_tokens = s.total_tokens
    ∧ rrem.1.tracked_files = s.tracked_files
    ∧ rrem.1.total_tokens = s.total_tokens := by
  refine ⟨?_, ?_, ?_, ?_, ?_, ?_, ?_, ?_⟩
  · rw [create_lens]; split <;> rfl
  · rw [create_lens]; split <;> rfl
  · rw [switch_lens]; split
    · rfl
    · split <;> rfl
  · rw [switch_lens]; split
    · rfl
    · split <;> rfl
  all_goals
    first
    | (rw [add_file_to_lens] at hadd
       split at hadd
       · obtain rfl := Option.some_injective _ hadd; rfl
       · split at hadd
         · split at hadd
           · exact absurd hadd (by simp)
           · obtain rfl := Option.some_injective _ hadd; rfl
         · obtain rfl := Option.some_injective _ hadd; rfl)
    | (rw [remove_file_from_lens] at hrem
       split at hrem
       · obtain rfl := Option.some_injective _ hrem; rfl
       · split at hrem
         · exact absurd hrem (by simp)
         · split at hrem
           · obtain rfl := Option.some_injective _ hrem; rfl
           · obtain rfl := Option.some_injective _ hrem; rfl)

/-- Witness for C10 at a concrete state where both fallible lens operations
return. -/
theorem lens_ops_preserve_tracked_witness :
    add_file_to_lens
        { tracked_files := [("f", 5)], total_tokens := 5,
          lenses := [("L", [("f", 5)])], active_lens := "L" } "f"
      = some ({ tracked_files := [("f", 5)], total_tokens := 5,
                lenses := [("L", [("f", 5)])], active_lens := "L" },
              ["File f added to lens \x27L\x27."])
    ∧ ({ tracked_files := [("f", 5)], total_tokens := 5,
         lenses := [("L", [("f", 5)])], active_lens := "L" } : State).tracked_files
        = [("f", 5)] := by
  have h := lens_ops_preserve_tracked
    { tracked_files := [("f", 5)], total_tokens := 5,
      lenses := [("L", [("f", 5)])], active_lens := "L" } "M" "f"
    ({ tracked_files := [("f", 5)], total_tokens := 5,
       lenses := [("L", [("f", 5)])], active_lens := "L" },
     ["File f added to lens \x27L\x27."])
    ({ tracked_files := [("f", 5)], total_tokens := 5,
       lenses := [("L", [])], active_lens := "L" },
     ["File f removed from lens \x27L\x27."])
    (by decide) (by decide)
  exact ⟨by decide, h.2.2.2.2.1 ▸ rfl⟩

/-! ### Persistence round-trip lemmas -/

theorem dlookup_none_not_mem {α : Type} (d : PyDict α) (k : String)
    (h : dlookup d k = none) : k ∉ dkeys d := by
  induction d with
  | nil => simp [dkeys]
  | cons e rest ih =>
    obtain ⟨k', v⟩ := e
    rw [dlookup] at h
    by_cases hk : k' = k
    · rw [if_pos hk] at h; exact absurd h (by simp)
    · rw [if_neg hk] at h
      simp only [dkeys, List.map_cons, List.mem_cons]
      rintro (rfl | hmem)
      · exact hk rfl
      · exact ih h (by simpa [dkeys] using hmem)

theorem decodeNum_encode (v : Nat) : decodeNum (Json.num (v : Int)) = some v := by
  rw [decodeNum, if_pos (Int.natCast_nonneg v)]
  simp

theorem decodeCountEntries_encode (d : PyDict Nat) :
    decodeCountEntries (d.map (fun e => (e.1, Json.num (e.2 : Int)))) = some d := by
  induction d with
  | nil => rfl
  | cons e rest ih =>
    simp [decodeCountEntries, decodeNum_encode, ih]

theorem decodeCounts_encode (d : PyDict Nat) :
    decodeCounts (encodeCounts d) = some d := by
  rw [encodeCounts, decodeCounts, decodeCountEntries_encode]

theorem decodeLensEntries_encode (l : PyDict (PyDict Nat)) :
    decodeLensEntries (l.map (fun e => (e.1, encodeCounts e.2))) = some l := by
  induction l with
  | nil => rfl
  | cons e rest ih =>
    simp [decodeLensEntries, decodeCounts_encode, ih]

theorem decodeLenses_encode (l : PyDict (PyDict Nat)) :
    decodeLenses (encodeLenses l) = some l := by
  rw [encodeLenses, decodeLenses, decodeLensEntries_encode]

/-- C4: saving the snapshot and loading it into a fresh store reproduces the
tracked-file mapping, the lens collection and the active lens exactly, and
the fresh store's total is the sum of the loaded per-file counts. -/
theorem save_load_roundtrip (s : State) :
    load_tracked_files initState (some (save_tracked_files s)) =
      some { tracked_files := s.tracked_files,
             total_tokens := (sumValues s.tracked_files : Int),
             lenses := s.lenses,
             active_lens := s.active_lens } := by
  rw [save_tracked_files, load_tracked_files]
  have h1 : jget [("tracked_files", encodeCounts s.tracked_files),
                  ("lenses", encodeLenses s.lenses),
                  ("active_lens", Json.str s.active_lens)]
              "tracked_files" (Json.obj []) = encodeCounts s.tracked_files := rfl
  have h2 : jget [("tracked_files", encodeCounts s.tracked_files),
                  ("lenses", encodeLenses s.lenses),
                  ("active_lens", Json.str s.active_lens)]
              "lenses" (Json.obj []) = encodeLenses s.lenses := rfl
  have h3 : jget [("tracked_files", encodeCounts s.tracked_files),
                  ("lenses", encodeLenses s.lenses),
                  ("active_lens", Json.str s.active_lens)]
              "active_lens" (Json.str "") = Json.str s.active_lens := rfl
  rw [h1, h2, h3, decodeCounts_encode, decodeLenses_encode]
  rfl

/-! ### Context-assembly lemmas -/

theorem renderFiles_eq_renderList (disk : String → Option String)
    (content : String → String) (ps : List String)
    (h : ∀ p ∈ ps, disk p = some (content p)) :
    renderFiles disk ps = some (renderList content ps) := by
  induction ps with
  | nil => rfl
  | cons p rest ih =>
    have hp := h p (List.mem_cons_self p rest)
    have hrest := ih (fun q hq => h q (List.mem_cons_of_mem p hq))
    rw [renderFiles, renderList, hp, hrest]
    rfl

theorem renderFiles_congr (disk disk2 : String → Option String)
    (ps : List String) (h : ∀ p ∈ ps, disk p = disk2 p) :
    renderFiles disk ps = renderFiles disk2 ps := by
  induction ps with
  | nil => rfl
  | cons p rest ih =>
    rw [renderFiles, renderFiles, h p (List.mem_cons_self p rest),
        ih (fun q hq => h q (List.mem_cons_of_mem p hq))]

/-- C3: with an active lens, `read_tracked_files` builds the context from
exactly the lens's member paths in iteration order — header plus fenced
content per path (`renderList`); with no active lens it does the same over
the full tracked set; and with a lens active, a path `b` tracked globally but
absent from the lens is not among the lens's member paths and the resulting
context is independent of `b`'s on-disk content. -/
theorem read_tracked_files_spec (s s0 : State)
    (disk disk2 : String → Option String) (content : String → String)
    (m : PyDict Nat) (b : String)
    (ha : s.active_lens ≠ "")
    (hm : dlookup s.lenses s.active_lens = some m)
    (hread : ∀ p ∈ dkeys m, disk p = some (content p))
    (hs0 : s0.active_lens = "")
    (hread0 : ∀ p ∈ dkeys s0.tracked_files, disk p = some (content p))
    (hbt : dmem s.tracked_files b = true)
    (hb : dmem m b = false)
    (hagree : ∀ q, q ≠ b → disk q = disk2 q) :
    read_tracked_files s disk
        = some ("Tracked file context:\n\n" ++ renderList content (dkeys m))
    ∧ read_tracked_files s0 disk
        = some ("Tracked file context:\n\n" ++
            renderList content (dkeys s0.tracked_files))
    ∧ b ∉ dkeys m
    ∧ read_tracked_files s disk = read_tracked_files s disk2 := by
  have hbm : b ∉ dkeys m := by
    refine dlookup_none_not_mem m b ?_
    cases hcase : dlookup m b with
    | none => rfl
    | some v => rw [dmem, hcase] at hb; simp at hb
  have hlens : ∀ dsk, read_tracked_files s dsk =
      Option.map (fun body => "Tracked file context:\n\n" ++ body)
        (renderFiles dsk (dkeys m)) := by
    intro dsk
    rw [read_tracked_files, if_neg ha, hm]
  have hfull : read_tracked_files s0 disk =
      Option.map (fun body => "Tracked file context:\n\n" ++ body)
        (renderFiles disk (dkeys s0.tracked_files)) := by
    rw [read_tracked_files, if_pos hs0]
  refine ⟨?_, ?_, hbm, ?_⟩
  · rw [hlens disk, renderFiles_eq_renderList disk content (dkeys m) hread]
    rfl
  · rw [hfull,
        renderFiles_eq_renderList disk content (dkeys s0.tracked_files) hread0]
    rfl
  · rw [hlens disk, hlens disk2,
        renderFiles_congr disk disk2 (dkeys m)
          (fun p hp => hagree p (fun hpb => hbm (hpb ▸ hp)))]

/-- Witness for C3 at a concrete store with lens `L` containing only `a`
while `b` is tracked globally. -/
theorem read_tracked_files_spec_witness :
    dmem ([("a", 1)] : PyDict Nat) "b" = false
    ∧ read_tracked_files
        { tracked_files := [("a", 1), ("b", 1)], total_tokens := 2,
          lenses := [("L", [("a", 1)])], active_lens := "L" }
        (fun p => if p = "a" then some "A" else if p = "b" then some "B" else none)
      = some ("Tracked file context:\n\n" ++
          renderList (fun p => if p = "a" then "A" else "B") (dkeys [("a", 1)])) :=
  ⟨by decide,
   (read_tracked_files_spec
      { tracked_files := [("a", 1), ("b", 1)], total_tokens := 2,
        lenses := [("L", [("a", 1)])], active_lens := "L" }
      { tracked_files := [("a", 1)], total_tokens := 1,
        lenses := [], active_lens := "" }
      (fun p => if p = "a" then some "A" else if p = "b" then some "B" else none)
      (fun p => if p = "a" then some "A" else if p = "b" then some "B" else none)
      (fun p => if p = "a" then "A" else "B")
      [("a", 1)] "b"
      (by decide) (by decide) (by decide) (by decide) (by decide) (by decide)
      (by decide) (fun q _ => rfl)).1⟩

/-! ### Lens round-trip lemmas -/

theorem remove_file_from_lens_present (u : State) (lens : PyDict Nat)
    (p : String) (ha : u.active_lens ≠ "")
    (hm : dlookup u.lenses u.active_lens = some lens)
    (hmem : dmem lens p = true) :
    remove_file_from_lens u p =
      some ({ u with lenses := dset u.lenses u.active_lens (ddel lens p) },
            ["File " ++ p ++ " removed from lens \x27" ++ u.active_lens ++ "\x27."]) := by
  rw [remove_file_from_lens, if_neg ha, hm]
  simp [hmem]

/-- C7: with an active lens and a tracked path `p` not yet in that lens,
`add_file_to_lens p` followed by `remove_file_from_lens p` restores the lens
collection (hence the active lens's membership) and the active-lens name to
their prior values; and `track_file p` never touches the lens collection, so
a count already stored in a lens survives any re-track (the whole stored
lens map `lm` is still found unchanged afterwards). -/
theorem lens_add_remove_roundtrip (tokens : String → Nat) (s s2 : State)
    (m lm : PyDict Nat) (p l : String) (f : Option String)
    (ha : s.active_lens ≠ "")
    (hm : dlookup s.lenses s.active_lens = some m)
    (hp : dmem s.tracked_files p = true)
    (hnp : dmem m p = false)
    (hl : dlookup s2.lenses l = some lm) :
    ((add_file_to_lens s p).bind (fun r => remove_file_from_lens r.1 p)).map
        (fun r => (r.1.lenses, r.1.active_lens))
      = some (s.lenses, s.active_lens)
    ∧ (track_file tokens s2 p f).1.lenses = s2.lenses
    ∧ dlookup (track_file tokens s2 p f).1.lenses l = some lm := by
  have htrack : (track_file tokens s2 p f).1.lenses = s2.lenses := by
    cases f with
    | none => rfl
    | some c =>
      simp only [track_file]
      split <;> rfl
  refine ⟨?_, htrack, htrack ▸ hl⟩
  have e1 : add_file_to_lens s p
      = some ({ s with lenses := dset s.lenses s.active_lens (dset m p (dget s.tracked_files p)) },
              ["File " ++ p ++ " added to lens \x27" ++ s.active_lens ++ "\x27."]) := by
    rw [add_file_to_lens, if_neg ha, if_pos hp, hm]
  have e2 : remove_file_from_lens
        ({ s with lenses := dset s.lenses s.active_lens (dset m p (dget s.tracked_files p)) } : State) p
      = some ({ s with lenses := dset (dset s.lenses s.active_lens (dset m p (dget s.tracked_files p))) s.active_lens (ddel (dset m p (dget s.tracked_files p)) p) },
            ["File " ++ p ++ " removed from lens \x27" ++ s.active_lens ++ "\x27."]) :=
    remove_file_from_lens_present _ _ p ha
      (dlookup_dset_self s.lenses s.active_lens _)
      (dmem_dset_self m p _)
  rw [e1, Option.some_bind, e2, Option.map_some']
  rw [dset_dset_same, ddel_dset_notmem m p _ hnp, dset_lookup_id s.lenses s.active_lens m hm]

/-- Witness for C7: lens `L` is active and empty, `f` is tracked with count
5; after add + remove the lens collection is back to its prior value, and
re-tracking `f` with a different token count (2) leaves the separately
stored lens count 9 of state `s2` untouched. -/
theorem lens_add_remove_roundtrip_witness :
    dmem ([] : PyDict Nat) "f" = false
    ∧ ((add_file_to_lens
          { tracked_files := [("f", 5)], total_tokens := 5,
            lenses := [("L", [])], active_lens := "L" } "f").bind
        (fun r => remove_file_from_lens r.1 "f")).map
          (fun r => (r.1.lenses, r.1.active_lens))
      = some ([("L", [])], "L") :=
  ⟨by decide,
   (lens_add_remove_roundtrip String.length
      { tracked_files := [("f", 5)], total_tokens := 5,
        lenses := [("L", [])], active_lens := "L" }
      { tracked_files := [("f", 5)], total_tokens := 5,
        lenses := [("L", [("f", 9)])], active_lens := "L" }
      [] [("f", 9)] "f" "L" (some "xx")
      (by decide) (by decide) (by decide) (by decide) (by decide)).1⟩

/-! ### Directory-removal lemmas -/

/-- The effect of one `rmStep` on the (tracked, total) pair alone. -/
def rmPair (acc : PyDict Nat × Int) (p : String) : PyDict Nat × Int :=
  (ddel acc.1 p, acc.2 - (dget acc.1 p : Int))

theorem foldl_rmStep_eq_rmPair (ps : List String) :
    ∀ st : State, List.foldl rmStep st ps =
      { st with
        tracked_files := (List.foldl rmPair (st.tracked_files, st.total_tokens) ps).1,
        total_tokens := (List.foldl rmPair (st.tracked_files, st.total_tokens) ps).2 } := by
  induction ps with
  | nil => intro st; rfl
  | cons p ps ih =>
    intro st
    rw [List.foldl_cons, List.foldl_cons, ih (rmStep st p)]
    rfl

theorem rmPair_cons_skip (ps : List String) :
    ∀ (d : PyDict Nat) (t : Int) (k : String) (v : Nat), k ∉ ps →
      List.foldl rmPair ((k, v) :: d, t) ps
        = ((k, v) :: (List.foldl rmPair (d, t) ps).1,
           (List.foldl rmPair (d, t) ps).2) := by
  induction ps with
  | nil => intro d t k v _; rfl
  | cons p ps ih =>
    intro d t k v hk
    have hkp : k ≠ p := fun h => hk (h ▸ List.mem_cons_self p ps)
    have h1 : rmPair ((k, v) :: d, t) p = ((k, v) :: ddel d p, t - (dget d p : Int)) := by
      simp [rmPair, ddel, dget, dlookup, hkp]
    rw [List.foldl_cons, h1, ih _ _ _ _ (fun h => hk (List.mem_cons_of_mem p h)),
        List.foldl_cons]
    rfl

theorem rmPair_fold_filter (pred : String → Bool) (d : PyDict Nat) :
    ∀ t : Int, (dkeys d).Nodup →
      List.foldl rmPair (d, t) ((dkeys d).filter pred)
        = (d.filter (fun e => !pred e.1),
           t - (sumValues (d.filter (fun e => pred e.1)) : Int)) := by
  induction d with
  | nil => intro t _; simp [dkeys, sumValues]
  | cons e rest ih =>
    intro t hnd
    obtain ⟨k, v⟩ := e
    have hkeys : dkeys ((k, v) :: rest) = k :: dkeys rest := rfl
    rw [hkeys] at hnd
    have hnc := List.nodup_cons.mp hnd
    have hk : k ∉ dkeys rest := hnc.1
    have hnd' : (dkeys rest).Nodup := hnc.2
    by_cases hp : pred k = true
    · rw [hkeys, List.filter_cons, if_pos (by simp [hp]), List.foldl_cons]
      have h1 : rmPair ((k, v) :: rest, t) k = (rest, t - (v : Int)) := by
        simp [rmPair, ddel, dget, dlookup]
      rw [h1, ih _ hnd']
      refine Prod.ext ?_ ?_
      · simp [List.filter_cons, hp]
      · have hsum : sumValues (((k, v) :: rest).filter (fun e => pred e.1))
            = v + sumValues (rest.filter (fun e => pred e.1)) := by
          simp [List.filter_cons, hp, sumValues]
        dsimp only
        rw [hsum]
        push_cast
        ring
    · have hp' : pred k = false := by
        cases hcase : pred k
        · rfl
        · exact absurd hcase hp
      have hfilter : (dkeys ((k, v) :: rest)).filter pred
          = (dkeys rest).filter pred := by
        rw [hkeys, List.filter_cons, if_neg (by simp [hp'])]
      have hknotin : k ∉ (dkeys rest).filter pred :=
        fun h => hk (List.mem_of_mem_filter h)
      rw [hfilter, rmPair_cons_skip _ rest t k v hknotin, ih _ hnd']
      refine Prod.ext ?_ ?_
      · simp [List.filter_cons, hp']
      · simp [List.filter_cons, hp']

/-- C6: `remove_tracked_directory d` removes exactly the tracked entries
whose absolute path starts with the absolute form of `d` (in the
string-prefix sense the code uses), decrements the total by the sum of the
removed entries' cached counts, leaves every other entry as well as the
lenses and the active lens unchanged, and is a state no-op with a report
when nothing matches. -/
theorem remove_tracked_directory_spec (abspath : String → String) (s : State)
    (directory_path : String) (hnd : (dkeys s.tracked_files).Nodup) :
    (remove_tracked_directory abspath s directory_path).1.tracked_files
        = s.tracked_files.filter
            (fun e => !startswith (abspath e.1) (abspath directory_path))
    ∧ (remove_tracked_directory abspath s directory_path).1.total_tokens
        = s.total_tokens - (sumValues (s.tracked_files.filter
            (fun e => startswith (abspath e.1) (abspath directory_path))) : Int)
    ∧ (remove_tracked_directory abspath s directory_path).1.lenses = s.lenses
    ∧ (remove_tracked_directory abspath s directory_path).1.active_lens
        = s.active_lens
    ∧ (s.tracked_files.filter
          (fun e => startswith (abspath e.1) (abspath directory_path)) = [] →
        remove_tracked_directory abspath s directory_path
          = (s, ["No tracked files found in directory: "
                  ++ abspath directory_path])) := by
  have hkeys : (dkeys s.tracked_files).filter
        (fun p => startswith (abspath p) (abspath directory_path))
      = (s.tracked_files.filter
          (fun e => startswith (abspath e.1) (abspath directory_path))).map
          Prod.fst :=
    List.filter_map Prod.fst s.tracked_files
  by_cases hE : s.tracked_files.filter
      (fun e => startswith (abspath e.1) (abspath directory_path)) = []
  · have hempty : ((dkeys s.tracked_files).filter
        (fun p => startswith (abspath p) (abspath directory_path))).isEmpty = true := by
      rw [hkeys, hE]; rfl
    have hres : remove_tracked_directory abspath s directory_path
        = (s, ["No tracked files found in directory: "
                ++ abspath directory_path]) := by
      rw [remove_tracked_directory]
      simp only [hempty]
      rfl
    have hall : ∀ e ∈ s.tracked_files,
        ¬ (startswith (abspath e.1) (abspath directory_path) = true) :=
      List.filter_eq_nil_iff.mp hE
    have hneg : s.tracked_files.filter
        (fun e => !startswith (abspath e.1) (abspath directory_path))
          = s.tracked_files :=
      List.filter_eq_self.mpr (fun e he => by simp [hall e he])
    rw [hres]
    refine ⟨hneg.symm, ?_, rfl, rfl, fun _ => rfl⟩
    rw [hE]
    simp [sumValues]
  · have hnonempty : ((dkeys s.tracked_files).filter
        (fun p => startswith (abspath p) (abspath directory_path))).isEmpty = false := by
      rw [hkeys]
      cases hcase : s.tracked_files.filter
          (fun e => startswith (abspath e.1) (abspath directory_path)) with
      | nil => exact absurd hcase hE
      | cons a l => rfl
    have hres : remove_tracked_directory abspath s directory_path
        = (((dkeys s.tracked_files).filter
              (fun p => startswith (abspath p) (abspath directory_path))).foldl
                rmStep s,
           ["Removed all tracked files in directory: "
             ++ abspath directory_path]) := by
      rw [remove_tracked_directory]
      simp only [hnonempty]
      rfl
    have hfold := foldl_rmStep_eq_rmPair
      ((dkeys s.tracked_files).filter
        (fun p => startswith (abspath p) (abspath directory_path))) s
    have hpair := rmPair_fold_filter
      (fun p => startswith (abspath p) (abspath directory_path))
      s.tracked_files s.total_tokens hnd
    rw [hres]
    refine ⟨?_, ?_, ?_, ?_, fun h => absurd h hE⟩
    · rw [hfold]; dsimp only; rw [hpair]
    · rw [hfold]; dsimp only; rw [hpair]
    · rw [hfold]
    · rw [hfold]

/-- Witness for C6: with `abspath` the identity, removing directory `"/a"`
from a store tracking `/a/x` and `/b/y`. -/
theorem remove_tracked_directory_spec_witness :
    (dkeys ([("/a/x", 3), ("/b/y", 4)] : PyDict Nat)).Nodup
    ∧ (remove_tracked_directory id
        { tracked_files := [("/a/x", 3), ("/b/y", 4)], total_tokens := 7,
          lenses := [], active_lens := "" } "/a").1.tracked_files
      = [("/a/x", 3), ("/b/y", 4)].filter (fun e => !startswith (id e.1) (id "/a")) :=
  ⟨by decide,
   (remove_tracked_directory_spec id
      { tracked_files := [("/a/x", 3), ("/b/y", 4)], total_tokens := 7,
        lenses := [], active_lens := "" } "/a" (by decide)).1⟩

/-! ### Directory-walk lemmas -/

theorem filter_idem {α : Type} (p : α → Bool) (l : List α) :
    (l.filter p).filter p = l.filter p := by
  rw [List.filter_filter]
  simp only [Bool.and_self]

theorem files_fold_eq (tokens : String → Nat) (root : String)
    (files : List (String × Except String String)) :
    ∀ acc, files.foldl
        (fun a f => if startswith f.1 "." then a
                    else processEntry tokens a (pjoin root f.1, f.2)) acc
      = ((files.filter (fun f => !startswith f.1 ".")).map
          (fun f => (pjoin root f.1, f.2))).foldl (processEntry tokens) acc := by
  induction files with
  | nil => intro acc; rfl
  | cons f fs ih =>
    intro acc
    cases h : startswith f.1 "." with
    | true =>
      rw [List.foldl_cons, if_pos h, List.filter_cons, if_neg (by simp [h]), ih]
    | false =>
      rw [List.foldl_cons, if_neg (by simp [h]), List.filter_cons,
          if_pos (by simp [h]), List.map_cons, List.foldl_cons, ih]

mutual
theorem track_dir_walk_eq (tokens : String → Nat) (root : String)
    (t : DirTree) (acc : State × List String) :
    track_dir_walk tokens root t acc
      = (candFiles root t).foldl (processEntry tokens) acc := by
  match t with
  | DirTree.node files subdirs =>
    rw [track_dir_walk, candFiles, files_fold_eq tokens root files acc,
        List.foldl_append]
    exact track_subs_walk_eq tokens root subdirs _

theorem track_subs_walk_eq (tokens : String → Nat) (root : String)
    (l : EntryList) (acc : State × List String) :
    track_subs_walk tokens root l acc
      = (candSubs root l).foldl (processEntry tokens) acc := by
  match l with
  | EntryList.nil => rfl
  | EntryList.cons n t rest =>
    rw [track_subs_walk, candSubs, List.foldl_append]
    cases h : startswith n "." with
    | true =>
      rw [if_pos rfl, if_pos rfl, List.foldl_nil]
      exact track_subs_walk_eq tokens root rest acc
    | false =>
      rw [if_neg (by simp), if_neg (by simp),
          track_dir_walk_eq tokens (pjoin root n) t acc]
      exact track_subs_walk_eq tokens root rest _
end

mutual
theorem candFiles_prune (root : String) (t : DirTree) :
    candFiles root (pruneTree t) = candFiles root t := by
  match t with
  | DirTree.node files subdirs =>
    rw [pruneTree, candFiles, candFiles, candSubs_prune root subdirs,
        filter_idem]

theorem candSubs_prune (root : String) (l : EntryList) :
    candSubs root (pruneSubs l) = candSubs root l := by
  match l with
  | EntryList.nil => rfl
  | EntryList.cons n t rest =>
    rw [pruneSubs]
    cases h : startswith n "." with
    | true =>
      rw [if_pos rfl, candSubs_prune root rest, candSubs, if_pos h,
          List.nil_append]
    | false =>
      rw [if_neg (by simp), candSubs, candSubs, if_neg (by simp [h]),
          if_neg (by simp [h]), candFiles_prune (pjoin root n) t,
          candSubs_prune root rest]
end

/-- C8: the directory walk processes exactly the candidate files listed by
`candFiles` (so dot-named files are never read or tracked and the contents
of dot-named directories, at every level, are never visited: the walk's
outcome is invariant under deleting all hidden entries); a candidate whose
token count exceeds the 20000 per-file limit is skipped with a report while
the walk continues with the remaining files and the store untouched by that
step, and an I/O error on a candidate is caught and reported likewise
without stopping the walk. -/
theorem track_directory_spec (tokens : String → Nat) (s : State) (d : String)
    (t : DirTree) (acc : State × List String) (p c err : String)
    (rest : List (String × Except String String))
    (hc : 20000 < tokens c) :
    track_directory tokens s d t
        = (candFiles d t).foldl (processEntry tokens) (s, [])
    ∧ track_directory tokens s d t = track_directory tokens s d (pruneTree t)
    ∧ List.foldl (processEntry tokens) acc ((p, Except.ok c) :: rest)
        = List.foldl (processEntry tokens)
            (acc.1, acc.2 ++ ["Skipping " ++ p ++ ": exceeds 20000 token limit."])
            rest
    ∧ List.foldl (processEntry tokens) acc ((p, Except.error err) :: rest)
        = List.foldl (processEntry tokens)
            (acc.1, acc.2 ++ ["Error processing " ++ p ++ ": " ++ err ++ ". Skipping."])
            rest := by
  refine ⟨?_, ?_, ?_, ?_⟩
  · rw [track_directory]
    exact track_dir_walk_eq tokens d t (s, [])
  · rw [track_directory, track_directory, track_dir_walk_eq, track_dir_walk_eq,
        candFiles_prune]
  · rw [List.foldl_cons]
    have hstep : processEntry tokens acc (p, Except.ok c)
        = (acc.1, acc.2 ++ ["Skipping " ++ p ++ ": exceeds 20000 token limit."]) := by
      simp only [processEntry]
      rw [if_pos hc]
    rw [hstep]
  · rw [List.foldl_cons]
    have hstep : processEntry tokens acc (p, Except.error err)
        = (acc.1, acc.2 ++ ["Error processing " ++ p ++ ": " ++ err ++ ". Skipping."]) := by
      simp only [processEntry]
    rw [hstep]

/-- Witness for C8: a tree with one visible file and a hidden `.git`
subdirectory, and a 25000-token oracle triggering the per-file skip. -/
theorem track_directory_spec_witness :
    20000 < (fun (_ : String) => 25000) "big"
    ∧ track_directory (fun _ => 25000) initState "r"
        (DirTree.node [("a.txt", Except.ok "x")]
          (EntryList.cons ".git"
            (DirTree.node [("g", Except.ok "y")] EntryList.nil) EntryList.nil))
      = track_directory (fun _ => 25000) initState "r"
          (pruneTree (DirTree.node [("a.txt", Except.ok "x")]
            (EntryList.cons ".git"
              (DirTree.node [("g", Except.ok "y")] EntryList.nil) EntryList.nil))) :=
  ⟨by decide,
   (track_directory_spec (fun _ => 25000) initState "r"
      (DirTree.node [("a.txt", Except.ok "x")]
        (EntryList.cons ".git"
          (DirTree.node [("g", Except.ok "y")] EntryList.nil) EntryList.nil))
      (initState, []) "big.txt" "big" "boom" [] (by decide)).2.1⟩

end LocalChat
